import Mathlib

/-!
Shallow embedding of the sync core of the offloadingTrucks application:
the data model (`Truck`, `TruckData`), the local-cache / merge layer of
`DataSyncService` (src/utils/dateUtils.ts), the operation queue
(`SyncQueueManager`, src/services/dataSync.ts) and the remote write loop
(`GitHubService.saveData`, src/services/githubService.ts).
Timestamps are modelled as `Int` milliseconds since the epoch
(the value of `new Date(s).getTime()`); JavaScript `Map`s are modelled as
insertion-ordered association lists with in-place replacement on `set`.
-/

namespace TruckSync

/-- A truck record, keeping only the fields the sync layer reads:
`id`, `createdAt` and the optional `updatedAt` (absent or empty string in
JS — both falsy — are modelled as `none`). -/
structure Truck where
  id : String
  createdAt : Int
  updatedAt : Option Int
deriving DecidableEq

/-- The whole persisted document: `{ trucks, lastUpdated }`. -/
structure TruckData where
  trucks : List Truck
  lastUpdated : Int
deriving DecidableEq

/-- 72 hours in milliseconds, the auto-cleanup horizon. -/
def hours72Ms : Int := 72 * 60 * 60 * 1000

/-- 5 minutes in milliseconds, the pending-change staleness window. -/
def fiveMinutesMs : Int := 5 * 60 * 1000

/-- JS `truck.updatedAt || truck.createdAt` converted to epoch ms. -/
def effTime (t : Truck) : Int := t.updatedAt.getD t.createdAt

/-- JS `Map.get` on a truck map keyed by `id`. -/
def findTruck (m : List Truck) (i : String) : Option Truck :=
  m.find? (fun t => t.id == i)

/-- JS `Map.set` on a truck map keyed by `id`: replace in place when the
key exists (keeping insertion order), otherwise append. -/
def mapSet (m : List Truck) (t : Truck) : List Truck :=
  if m.any (fun u => u.id == t.id) then
    m.map (fun u => if u.id == t.id then t else u)
  else m ++ [t]

/-- One iteration of the remote loop of
`DataSyncService.mergeRemoteData` (dateUtils.ts 187-214): skip records
pending deletion or pending local change, adopt unknown records, and
replace a known record only when the remote effective time is more than
1000 ms newer than the local one. -/
def mergeStep (pendDel pendChg : List String) (m : List Truck) (r : Truck) :
    List Truck :=
  if pendDel.contains r.id then m
  else if pendChg.contains r.id then m
  else
    match findTruck m r.id with
    | none => mapSet m r
    | some l => if effTime r > effTime l + 1000 then mapSet m r else m

/-- Embedding of `DataSyncService.mergeRemoteData` (dateUtils.ts 177-219): build a map
from the local trucks, fold the remote trucks through `mergeStep`, and
stamp `lastUpdated` with the current time. -/
def mergeRemoteData (pendDel pendChg : List String)
    (localTrucks remoteTrucks : List Truck) (now : Int) : TruckData :=
  { trucks := remoteTrucks.foldl (mergeStep pendDel pendChg)
      (localTrucks.foldl mapSet []),
    lastUpdated := now }

/-- The filter of `DataSyncService.cleanupOldTrucks` (dateUtils.ts
309-323): keep a truck iff `isAfter(createdAt, now - 72h)`, i.e. iff its
`createdAt` is strictly after the cutoff. -/
def cleanupFilter (now : Int) (trucks : List Truck) : List Truck :=
  trucks.filter (fun t => decide (now - hours72Ms < t.createdAt))

/-- Result of `DataSyncService.loadData`: the document it returns, and
whether the auto-cleanup queued an update operation (via
`saveDataLocal`, which enqueues only when the GitHub service is
initialized). -/
structure LoadOutcome where
  result : TruckData
  cleanupQueued : Bool
deriving DecidableEq

/-- Embedding of `DataSyncService.cleanupOldTrucks` (dateUtils.ts 309-323): when the
filter removed something, the document is replaced (and `saveDataLocal`
stamps `lastUpdated` with the current time and queues an update
operation iff the GitHub service is initialized — the returned flag);
otherwise nothing happens. -/
def cleanupOldTrucks (d : TruckData) (now : Int) (initialized : Bool) :
    TruckData × Bool :=
  let filtered := cleanupFilter now d.trucks
  if filtered.length ≠ d.trucks.length then
    ({ trucks := filtered, lastUpdated := now }, initialized)
  else (d, false)

/-- Embedding of `DataSyncService.loadData` (dateUtils.ts 150-175).
`stored` is the parsed `localStorage` document (`none` when absent),
`prev` the in-memory document used when nothing is stored,
`initialized` whether the GitHub service is configured, and `remote` the
fetched remote document (`none` when not configured or the fetch threw,
in which case the local data is kept). `cleanupOldTrucks` runs on the
stored document; then, when initialized and the fetch succeeded, the
remote document is merged. -/
def loadData (stored : Option TruckData) (prev : TruckData)
    (initialized : Bool) (remote : Option TruckData)
    (pendDel pendChg : List String) (now : Int) : LoadOutcome :=
  let afterLocal : TruckData × Bool :=
    match stored with
    | none => (prev, false)
    | some d => cleanupOldTrucks d now initialized
  let final : TruckData :=
    if initialized then
      match remote with
      | some r =>
        mergeRemoteData pendDel pendChg afterLocal.1.trucks r.trucks now
      | none => afterLocal.1
    else afterLocal.1
  { result := final, cleanupQueued := afterLocal.2 }

/-- The poll body of `DataSyncService.startPolling` (dateUtils.ts
325-346): merge the remote document only when its `lastUpdated` is newer
than the local one. -/
def pollMerge (pendDel pendChg : List String) (localD remote : TruckData)
    (now : Int) : TruckData :=
  if localD.lastUpdated < remote.lastUpdated then
    mergeRemoteData pendDel pendChg localD.trucks remote.trucks now
  else localD

/-- A pending-local-change entry: `{ timestamp, operation }`. -/
structure PendingChange where
  timestamp : Int
  opKind : String
deriving DecidableEq

/-- Embedding of `DataSyncService.loadPendingLocalChanges` (dateUtils.ts 112-130):
restore the saved map (empty when nothing is saved) and delete every
entry whose `timestamp` is strictly below `now - 5 minutes`. -/
def loadPendingLocalChanges
    (saved : Option (List (String × PendingChange))) (now : Int) :
    List (String × PendingChange) :=
  match saved with
  | none => []
  | some changes =>
    changes.filter (fun kv => !(decide (kv.2.timestamp < now - fiveMinutesMs)))

/-- The kinds of `SyncOperation` (dataSync.ts 234-243). -/
inductive OpType
  | update
  | delete
  | create
  | reset
deriving DecidableEq

/-- The status of a `SyncOperation`. -/
inductive OpStatus
  | pending
  | syncing
  | completed
  | failed
deriving DecidableEq

/-- The string used in the generated operation id. -/
def OpType.str : OpType → String
  | .update => "update"
  | .delete => "delete"
  | .create => "create"
  | .reset => "reset"

/-- A queued `SyncOperation` (dataSync.ts 234-243). -/
structure SyncOp where
  id : String
  timestamp : Int
  type : OpType
  entityId : Option String
  data : Option TruckData
  retries : Nat
  status : OpStatus
  error : Option String
deriving DecidableEq

/-- JS `entityId || 'all'`: an absent or empty (falsy) entity id becomes
`"all"`. -/
def optIdStr (x : Option String) : String :=
  match x with
  | some s => if s == "" then "all" else s
  | none => "all"

/-- The id generated by `addOperation` (dataSync.ts 330):
`` `${type}_${entityId || 'all'}_${Date.now()}` ``. -/
def opId (ty : OpType) (entityId : Option String) (now : Int) : String :=
  ty.str ++ "_" ++ optIdStr entityId ++ "_" ++ toString now

/-- JS `Map.set` on the operation queue keyed by `id`. -/
def queueSet (q : List SyncOp) (op : SyncOp) : List SyncOp :=
  if q.any (fun o => o.id == op.id) then
    q.map (fun o => if o.id == op.id then op else o)
  else q ++ [op]

/-- The argument of `addOperation`: a `SyncOperation` without
`id`, `timestamp`, `retries`, `status`. -/
structure NewOp where
  type : OpType
  entityId : Option String
  data : Option TruckData

/-- Embedding of `SyncQueueManager.addOperation` (dataSync.ts 329-360): when the
operation targets an entity (`if (operation.entityId)` — a JS truthiness
test, false for an absent or empty id), delete every pending operation
with the same `entityId` (coalescing), then `set` a fresh pending
operation under the generated id. -/
def addOperation (q : List SyncOp) (op : NewOp) (now : Int) : List SyncOp :=
  let q1 :=
    match op.entityId with
    | none => q
    | some e =>
      if e == "" then q
      else
        q.filter (fun o => !(o.entityId == some e && o.status == OpStatus.pending))
  queueSet q1
    { id := opId op.type op.entityId now, timestamp := now, type := op.type,
      entityId := op.entityId, data := op.data, retries := 0,
      status := .pending, error := none }

/-- A caught JS error as inspected by the queue: `error.status` and
`error.message` (possibly absent). -/
structure ErrorInfo where
  status : Option Nat
  message : Option String
deriving DecidableEq

/-- Substring test on character lists (JS `String.prototype.includes`). -/
def isSubListOf (needle : List Char) : List Char → Bool
  | [] => needle.isEmpty
  | c :: cs => needle.isPrefixOf (c :: cs) || isSubListOf needle cs

/-- JS `error.status === 409 || error.message?.includes('conflict')`
(dataSync.ts 406). -/
def conflictShaped (e : ErrorInfo) : Bool :=
  e.status == some 409 ||
    (match e.message with
     | some m => isSubListOf "conflict".data m.data
     | none => false)

/-- Outcome of the failure branch of `processSyncQueue` for one
operation: the updated operation, whether `handleConflict` ran, and the
backoff delay awaited (ms) when the drain continues. -/
structure FailOutcome where
  op : SyncOp
  addedConflict : Bool
  delayMs : Option Nat
deriving DecidableEq

/-- The `catch` branch of `SyncQueueManager.processSyncQueue`
(dataSync.ts 398-416): increment `retries`, record the error message;
at 3 or more retries mark `failed` and create a conflict record when the
error is conflict-shaped; below 3 re-mark `pending` and await
`2^retries * 1000` ms. -/
def handleOpFailure (op : SyncOp) (e : ErrorInfo) : FailOutcome :=
  let op1 : SyncOp := { op with retries := op.retries + 1, error := e.message }
  if op1.retries ≥ 3 then
    { op := { op1 with status := .failed }, addedConflict := conflictShaped e,
      delayMs := none }
  else
    { op := { op1 with status := .pending }, addedConflict := false,
      delayMs := some (2 ^ op1.retries * 1000) }

/-- JS `Map.set` on the conflicts map, tracked by keys: `handleConflict`
stores one record under the operation's id (dataSync.ts 453-460). -/
def conflictsSet (cs : List String) (i : String) : List String :=
  if cs.contains i then cs else cs ++ [i]

/-- The conflict keys after the failure branch ran for `op`. -/
def conflictsAfter (cs : List String) (op : SyncOp) (e : ErrorInfo) :
    List String :=
  if (handleOpFailure op e).addedConflict then conflictsSet cs op.id else cs

/-- The per-operation body of the `online` listener (dataSync.ts
280-284): a failed operation with fewer than 3 retries is re-marked
pending; anything else is untouched. -/
def onlineResetOp (op : SyncOp) : SyncOp :=
  if op.status == OpStatus.failed && op.retries < 3 then
    { op with status := .pending }
  else op

/-- The `online` listener's sweep over the queue. -/
def onlineReset (q : List SyncOp) : List SyncOp := q.map onlineResetOp

/-- Insertion into a list sorted by ascending `timestamp`. -/
def insertByTs (op : SyncOp) : List SyncOp → List SyncOp
  | [] => [op]
  | o :: os =>
    if op.timestamp ≤ o.timestamp then op :: o :: os else o :: insertByTs op os

/-- Sort by ascending `timestamp` (JS
`sort((a, b) => a.timestamp - b.timestamp)`). -/
def sortByTs : List SyncOp → List SyncOp
  | [] => []
  | o :: os => insertByTs o (sortByTs os)

/-- The operations a drain pass iterates over (dataSync.ts 370-372):
the pending ones, in ascending `timestamp` order. -/
def selectPending (q : List SyncOp) : List SyncOp :=
  sortByTs (q.filter (fun o => o.status == OpStatus.pending))

/-- JS `message.toLowerCase().includes('reset')` (githubService.ts 174),
lowercasing character by character. -/
def strContainsReset (s : String) : Bool :=
  isSubListOf "reset".data (s.data.map Char.toLower)

/-- The truck list `GitHubService.saveData` actually writes
(githubService.ts 188-216): when the remote file exists with content,
the message is not a reset, the input has at least one truck and the
existing content parses, the existing trucks are put in a map and then
overridden by the new trucks; otherwise the input trucks are written
as-is. `existing = none` covers a missing file or unparsable content. -/
def saveWriteTrucks (existing : Option (List Truck)) (isReset : Bool)
    (dataTrucks : List Truck) : List Truck :=
  match existing with
  | none => dataTrucks
  | some ex =>
    if !isReset && dataTrucks.length > 0 then
      dataTrucks.foldl mapSet (ex.foldl mapSet [])
    else dataTrucks

/-- The trucks `saveData` writes, as a function of the commit message. -/
def githubSaveTrucks (message : String) (existing : Option (List Truck))
    (dataTrucks : List Truck) : List Truck :=
  saveWriteTrucks existing (strContainsReset message) dataTrucks

/-- Outcome of one write attempt inside `saveData`'s retry loop:
success, a 409 precondition conflict, or another error. -/
inductive WriteOutcome
  | success
  | conflict409
  | other (e : ErrorInfo)
deriving DecidableEq

/-- The message of the error thrown when every retry is exhausted
(githubService.ts 261). -/
def exhaustedMessage : String :=
  "Failed to save data to GitHub after multiple attempts. Please try again."

/-- How `saveData` ends: normally; rethrowing a non-conflict error; or,
retries exhausted, throwing a fresh generic `Error` whose `carried`
underlying error is what that thrown object embeds (the source embeds
nothing: `lastError` is only logged). -/
inductive SaveOutcome
  | ok
  | rethrown (e : ErrorInfo)
  | exhausted (msg : String) (carried : Option ErrorInfo)
deriving DecidableEq

/-- Result of the `saveData` retry loop: how it ended and the delays
(ms) awaited after each 409, in order. -/
structure SaveResult where
  outcome : SaveOutcome
  delays : List Nat
deriving DecidableEq

/-- The `while (retries > 0)` loop of `GitHubService.saveData`
(githubService.ts 176-261), recursing on the remaining `retries`
(initially 5). On a 409 the counter is decremented and the loop sleeps
`(6 - retries) * 500` ms with the already-decremented counter; when the
counter reaches 0 the loop exits and a generic error is thrown. -/
def saveDataGo (outcome : Nat → WriteOutcome) :
    Nat → Nat → List Nat → SaveResult
  | 0, _, acc =>
    { outcome := .exhausted exhaustedMessage none, delays := acc.reverse }
  | retries + 1, attempt, acc =>
    match outcome attempt with
    | .success => { outcome := .ok, delays := acc.reverse }
    | .other e => { outcome := .rethrown e, delays := acc.reverse }
    | .conflict409 =>
      saveDataGo outcome retries (attempt + 1) ((6 - retries) * 500 :: acc)

/-- Embedding of `GitHubService.saveData`'s retry behaviour, starting from
`retries = 5`, where `outcome n` is what the `n`-th write attempt
(0-based) does. -/
def githubSaveData (outcome : Nat → WriteOutcome) : SaveResult :=
  saveDataGo outcome 5 0 []

/-- The mutable state of `DataSyncService` that `resetData` touches:
the cached document, the pending sets and the operation queue. -/
structure SyncState where
  localData : TruckData
  pendingDeletions : List String
  pendingLocalChanges : List (String × PendingChange)
  queue : List SyncOp
deriving DecidableEq

/-- Embedding of `DataSyncService.resetData` (dateUtils.ts 279-300): replace the
document with an empty one, clear the pending deletions, leave the
pending local changes untouched, and — when the GitHub service is
initialized — enqueue a `reset` operation carrying the empty document
and no entity id. -/
def resetData (st : SyncState) (initialized : Bool) (now : Int) : SyncState :=
  let empty : TruckData := { trucks := [], lastUpdated := now }
  { localData := empty,
    pendingDeletions := [],
    pendingLocalChanges := st.pendingLocalChanges,
    queue :=
      if initialized then
        addOperation st.queue { type := .reset, entityId := none, data := some empty } now
      else st.queue }

/-! ### Helper lemmas about the truck map -/

theorem self_mem_mapSet (m : List Truck) (r : Truck) : r ∈ mapSet m r := by
  unfold mapSet
  split
  next hany =>
    obtain ⟨u, hu, hid⟩ := List.any_eq_true.mp hany
    have himg : (fun v => if v.id == r.id then r else v) u = r := by simp [hid]
    have hmem := List.mem_map_of_mem (fun v => if v.id == r.id then r else v) hu
    rw [himg] at hmem
    exact hmem
  next =>
    exact List.mem_append_right _ (List.mem_singleton.mpr rfl)

theorem mem_mapSet {m : List Truck} {r t : Truck} (h : t ∈ mapSet m r) :
    t ∈ m ∨ t = r := by
  unfold mapSet at h
  split at h
  · obtain ⟨u, hu, hf⟩ := List.mem_map.mp h
    by_cases hc : u.id == r.id
    · right
      simp only [hc, if_true] at hf
      exact hf.symm
    · left
      simp only [hc, if_false] at hf
      exact hf ▸ hu
  · rcases List.mem_append.mp h with h1 | h2
    · exact Or.inl h1
    · exact Or.inr (List.mem_singleton.mp h2)

theorem idMem_mapSet_mono {m : List Truck} {i : String} (r : Truck)
    (h : ∃ u ∈ m, u.id = i) : ∃ u ∈ mapSet m r, u.id = i := by
  obtain ⟨u, hu, hui⟩ := h
  by_cases hc : u.id == r.id
  · refine ⟨r, self_mem_mapSet m r, ?_⟩
    rw [← eq_of_beq hc]
    exact hui
  · unfold mapSet
    split
    · refine ⟨u, ?_, hui⟩
      have himg : (fun v => if v.id == r.id then r else v) u = u := by simp [hc]
      have hmem := List.mem_map_of_mem (fun v => if v.id == r.id then r else v) hu
      rw [himg] at hmem
      exact hmem
    · exact ⟨u, List.mem_append_left _ hu, hui⟩

theorem mem_mergeStep {pd pc : List String} {m : List Truck} {r t : Truck}
    (h : t ∈ mergeStep pd pc m r) : t ∈ m ∨ t = r := by
  unfold mergeStep at h
  split at h
  · exact Or.inl h
  · split at h
    · exact Or.inl h
    · split at h
      · exact mem_mapSet h
      · split at h
        · exact mem_mapSet h
        · exact Or.inl h

theorem idMem_mergeStep_mono {pd pc : List String} {m : List Truck} {i : String}
    (r : Truck) (h : ∃ u ∈ m, u.id = i) :
    ∃ u ∈ mergeStep pd pc m r, u.id = i := by
  unfold mergeStep
  split
  · exact h
  · split
    · exact h
    · split
      · exact idMem_mapSet_mono r h
      · split
        · exact idMem_mapSet_mono r h
        · exact h

theorem not_idMem_mergeStep {pd pc : List String} {m : List Truck} {r : Truck}
    {e : String} (he : e ∈ pd) (hm : ∀ u ∈ m, u.id ≠ e) :
    ∀ u ∈ mergeStep pd pc m r, u.id ≠ e := by
  intro u hu
  unfold mergeStep at hu
  split at hu
  · exact hm u hu
  next hcont =>
    have hre : r.id ≠ e := by
      intro hbad
      have : r.id ∉ pd := by simpa using hcont
      exact this (hbad ▸ he)
    split at hu
    · exact hm u hu
    · have hcases : u ∈ m ∨ u = r := by
        split at hu
        · exact mem_mapSet hu
        · split at hu
          · exact mem_mapSet hu
          · exact Or.inl hu
      rcases hcases with h1 | h2
      · exact hm u h1
      · exact h2 ▸ hre

theorem mem_foldl_mapSet {t : Truck} :
    ∀ (l m : List Truck), t ∈ l.foldl mapSet m → t ∈ m ∨ t ∈ l
  | [], _, h => Or.inl h
  | x :: xs, m, h => by
    rcases mem_foldl_mapSet xs (mapSet m x) h with h1 | h2
    · rcases mem_mapSet h1 with h3 | h4
      · exact Or.inl h3
      · exact Or.inr (h4 ▸ List.mem_cons_self x xs)
    · exact Or.inr (List.mem_cons_of_mem x h2)

theorem idMem_foldl_mapSet_mono {i : String} :
    ∀ (l m : List Truck), (∃ u ∈ m, u.id = i) →
      ∃ u ∈ l.foldl mapSet m, u.id = i
  | [], _, h => h
  | x :: xs, m, h =>
    idMem_foldl_mapSet_mono xs (mapSet m x) (idMem_mapSet_mono x h)

theorem idMem_foldl_mapSet_of_mem {t : Truck} :
    ∀ (l m : List Truck), t ∈ l → ∃ u ∈ l.foldl mapSet m, u.id = t.id := by
  intro l
  induction l with
  | nil => intro m h; cases h
  | cons x xs ih =>
    intro m h
    rcases List.mem_cons.mp h with h1 | h2
    · subst h1
      exact idMem_foldl_mapSet_mono xs (mapSet m t) ⟨t, self_mem_mapSet m t, rfl⟩
    · exact ih (mapSet m x) h2

theorem mem_foldl_mergeStep {pd pc : List String} {t : Truck} :
    ∀ (rs m : List Truck), t ∈ rs.foldl (mergeStep pd pc) m → t ∈ m ∨ t ∈ rs
  | [], _, h => Or.inl h
  | x :: xs, m, h => by
    rcases mem_foldl_mergeStep xs (mergeStep pd pc m x) h with h1 | h2
    · rcases mem_mergeStep h1 with h3 | h4
      · exact Or.inl h3
      · exact Or.inr (h4 ▸ List.mem_cons_self x xs)
    · exact Or.inr (List.mem_cons_of_mem x h2)

theorem idMem_foldl_mergeStep_mono {pd pc : List String} {i : String} :
    ∀ (rs m : List Truck), (∃ u ∈ m, u.id = i) →
      ∃ u ∈ rs.foldl (mergeStep pd pc) m, u.id = i
  | [], _, h => h
  | x :: xs, m, h =>
    idMem_foldl_mergeStep_mono xs (mergeStep pd pc m x) (idMem_mergeStep_mono x h)

theorem not_idMem_foldl_mergeStep {pd pc : List String} {e : String}
    (he : e ∈ pd) :
    ∀ (rs m : List Truck), (∀ u ∈ m, u.id ≠ e) →
      ∀ u ∈ rs.foldl (mergeStep pd pc) m, u.id ≠ e
  | [], _, hm => hm
  | x :: xs, m, hm =>
    not_idMem_foldl_mergeStep he xs (mergeStep pd pc m x)
      (not_idMem_mergeStep he hm)

theorem findTruck_replace :
    ∀ (m : List Truck) (r : Truck), m.any (fun u => u.id == r.id) = true →
      List.find? (fun t => t.id == r.id)
        (m.map (fun u => if u.id == r.id then r else u)) = some r
  | [], _, h => by simp at h
  | u :: us, r, h => by
    simp only [List.map_cons]
    by_cases hc : u.id == r.id
    · have hhead : (if u.id == r.id then r else u) = r := by simp [hc]
      rw [hhead]
      exact List.find?_cons_of_pos _ (by simp)
    · have hhead : (if u.id == r.id then r else u) = u := by simp [hc]
      have h' : us.any (fun v => v.id == r.id) = true := by
        simpa [hc] using h
      rw [hhead, List.find?_cons_of_neg _ (by simpa using hc)]
      exact findTruck_replace us r h'

theorem findTruck_appendSelf :
    ∀ (m : List Truck) (r : Truck), m.any (fun u => u.id == r.id) = false →
      List.find? (fun t => t.id == r.id) (m ++ [r]) = some r
  | [], r, _ => by simp [List.find?]
  | u :: us, r, h => by
    have hc : (u.id == r.id) = false := by
      by_contra hb
      simp [eq_of_beq (eq_true_of_ne_false hb)] at h
    have h' : us.any (fun v => v.id == r.id) = false := by
      simpa [hc] using h
    simp [List.find?, hc, findTruck_appendSelf us r h']

theorem findTruck_mapSet_self (m : List Truck) (r : Truck) :
    findTruck (mapSet m r) r.id = some r := by
  unfold mapSet findTruck
  split
  next hany => exact findTruck_replace m r hany
  next hany => exact findTruck_appendSelf m r (by simpa using hany)

/-! ### Helper lemmas about the operation queue -/

theorem filter_not_filter (q : List SyncOp) (p : SyncOp → Bool) :
    (q.filter (fun o => !(p o))).filter p = [] := by
  induction q with
  | nil => rfl
  | cons o os ih => by_cases h : p o <;> simp [List.filter_cons, h, ih]

theorem filter_replace_eq :
    ∀ (q : List SyncOp) (op : SyncOp) (p : SyncOp → Bool),
      (q.map (fun o => o.id)).Nodup → (∀ o ∈ q, p o = false) → p op = true →
      q.any (fun o => o.id == op.id) = true →
      (q.map (fun o => if o.id == op.id then op else o)).filter p = [op]
  | [], _, _, _, _, _, hany => by simp at hany
  | o :: os, op, p, hnd, hq, hp, hany => by
    simp only [List.map_cons, List.filter_cons]
    by_cases hc : o.id == op.id
    · have hoid : o.id = op.id := eq_of_beq hc
      have hnotin : o.id ∉ os.map (fun v => v.id) := (List.nodup_cons.mp hnd).1
      have hhead : (if o.id == op.id then op else o) = op := by simp [hc]
      have hmap : os.map (fun v => if v.id == op.id then op else v) = os := by
        refine List.map_congr_left (fun u hu => ?_) |>.trans (List.map_id os)
        have hne : u.id ≠ op.id := by
          intro hbad
          exact hnotin (hoid ▸ hbad ▸ List.mem_map_of_mem (fun v => v.id) hu)
        simp [hne]
      have hrest : os.filter p = [] :=
        List.filter_eq_nil_iff.mpr
          (fun u hu => by simp [hq u (List.mem_cons_of_mem o hu)])
      rw [hhead, if_pos hp, hmap, hrest]
    · have hhead : (if o.id == op.id then op else o) = o := by simp [hc]
      have h' : os.any (fun v => v.id == op.id) = true := by
        simpa [hc] using hany
      have ih := filter_replace_eq os op p (List.nodup_cons.mp hnd).2
        (fun u hu => hq u (List.mem_cons_of_mem o hu)) hp h'
      have hpo : p o = false := hq o (List.mem_cons_self o os)
      rw [hhead, if_neg (by simp [hpo]), ih]

theorem filter_queueSet_eq (q : List SyncOp) (op : SyncOp) (p : SyncOp → Bool)
    (hnd : (q.map (fun o => o.id)).Nodup) (hq : ∀ o ∈ q, p o = false)
    (hp : p op = true) :
    (queueSet q op).filter p = [op] := by
  unfold queueSet
  split
  next hany => exact filter_replace_eq q op p hnd hq hp hany
  next hany =>
    have hqf : q.filter p = [] :=
      List.filter_eq_nil_iff.mpr (fun u hu => by simp [hq u hu])
    simp [List.filter_append, hqf, List.filter_cons, hp]

theorem ids_queueSet_nodup (q : List SyncOp) (op : SyncOp)
    (hnd : (q.map (fun o => o.id)).Nodup) :
    ((queueSet q op).map (fun o => o.id)).Nodup := by
  unfold queueSet
  split
  next hany =>
    have hmap : (q.map (fun o => if o.id == op.id then op else o)).map
        (fun o => o.id) = q.map (fun o => o.id) := by
      rw [List.map_map]
      exact List.map_congr_left (fun o _ => by
        by_cases hc : o.id = op.id <;> simp [hc])
    rw [hmap]
    exact hnd
  next hany =>
    have hnotin : op.id ∉ q.map (fun o => o.id) := by
      intro hbad
      obtain ⟨o, ho, hoi⟩ := List.mem_map.mp hbad
      have : q.any (fun o => o.id == op.id) = true :=
        List.any_eq_true.mpr ⟨o, ho, by simp [hoi]⟩
      simp [this] at hany
    have : (q ++ [op]).map (fun o => o.id) = q.map (fun o => o.id) ++ [op.id] := by
      simp
    rw [this]
    simp [List.nodup_append, hnotin]
    exact hnd

theorem ids_addOperation_nodup (q : List SyncOp) (op : NewOp) (now : Int)
    (hnd : (q.map (fun o => o.id)).Nodup) :
    ((addOperation q op now).map (fun o => o.id)).Nodup := by
  unfold addOperation
  have hsub : ∀ (f : SyncOp → Bool),
      ((q.filter f).map (fun o => o.id)).Nodup := by
    intro f
    exact hnd.sublist ((List.filter_sublist q).map (fun o => o.id))
  match hop : op.entityId with
  | none => exact ids_queueSet_nodup q _ hnd
  | some e =>
    by_cases he : e == ""
    · simp only [he, if_true]
      exact ids_queueSet_nodup q _ hnd
    · simp only [he, if_false]
      exact ids_queueSet_nodup _ _ (hsub _)

theorem mem_insertByTs {o x : SyncOp} :
    ∀ {l : List SyncOp}, o ∈ insertByTs x l → o = x ∨ o ∈ l
  | [], h => Or.inl (List.mem_singleton.mp h)
  | y :: ys, h => by
    unfold insertByTs at h
    split at h
    · rcases List.mem_cons.mp h with h1 | h2
      · exact Or.inl h1
      · exact Or.inr h2
    · rcases List.mem_cons.mp h with h1 | h2
      · exact Or.inr (h1 ▸ List.mem_cons_self y ys)
      · rcases mem_insertByTs h2 with h3 | h4
        · exact Or.inl h3
        · exact Or.inr (List.mem_cons_of_mem y h4)

theorem mem_sortByTs {o : SyncOp} :
    ∀ {l : List SyncOp}, o ∈ sortByTs l → o ∈ l
  | [], h => by simp [sortByTs] at h
  | y :: ys, h => by
    unfold sortByTs at h
    rcases mem_insertByTs h with h1 | h2
    · exact h1 ▸ List.mem_cons_self y ys
    · exact List.mem_cons_of_mem y (mem_sortByTs h2)

theorem status_of_mem_selectPending {o : SyncOp} {q : List SyncOp}
    (h : o ∈ selectPending q) : o.status = OpStatus.pending := by
  have h1 := mem_sortByTs h
  have h2 := (List.mem_filter.mp h1).2
  exact eq_of_beq h2

/-! ### Claim theorems -/

/-- C3: for a local record `l` and a remote record `r` with the same id,
the id neither pending-deleted nor pending-changed, the merge adopts the
remote version iff its effective time (`updatedAt` falling back to
`createdAt`) is newer than the local one's by more than 1 second: if not
(e.g. 500 ms newer) the local version is kept, if so (e.g. 1500 ms
newer) the remote version is adopted. -/
theorem claim_C3_merge_bias (pendDel pendChg : List String) (m : List Truck)
    (l r : Truck) (hfind : findTruck m r.id = some l)
    (hd : r.id ∉ pendDel) (hc : r.id ∉ pendChg) :
    (effTime l + 1000 < effTime r →
      findTruck (mergeStep pendDel pendChg m r) r.id = some r)
    ∧ (effTime r ≤ effTime l + 1000 →
      findTruck (mergeStep pendDel pendChg m r) r.id = some l) := by
  have hd' : pendDel.contains r.id = false := by simpa using hd
  have hc' : pendChg.contains r.id = false := by simpa using hc
  constructor
  · intro hlt
    unfold mergeStep
    rw [hd', hc']
    simp only [Bool.false_eq_true, if_false, hfind]
    rw [if_pos hlt]
    exact findTruck_mapSet_self m r
  · intro hle
    unfold mergeStep
    rw [hd', hc']
    simp only [Bool.false_eq_true, if_false, hfind]
    rw [if_neg (by omega)]
    exact hfind

/-- C3 witness: with a local record at time 0 in the map and a remote
record 1500 ms newer, the merge adopts the remote version; a remote
record only 500 ms newer is discarded and the local one kept. -/
theorem claim_C3_merge_bias_witness :
    (findTruck
        (mergeStep [] [] [{ id := "a", createdAt := 0, updatedAt := some 0 }]
          { id := "a", createdAt := 0, updatedAt := some 1500 }) "a"
      = some { id := "a", createdAt := 0, updatedAt := some 1500 })
    ∧ (findTruck
        (mergeStep [] [] [{ id := "a", createdAt := 0, updatedAt := some 0 }]
          { id := "a", createdAt := 0, updatedAt := some 500 }) "a"
      = some { id := "a", createdAt := 0, updatedAt := some 0 }) :=
  ⟨(claim_C3_merge_bias [] [] [{ id := "a", createdAt := 0, updatedAt := some 0 }]
      { id := "a", createdAt := 0, updatedAt := some 0 }
      { id := "a", createdAt := 0, updatedAt := some 1500 }
      (by decide) (by decide) (by decide)).1 (by decide),
   (claim_C3_merge_bias [] [] [{ id := "a", createdAt := 0, updatedAt := some 0 }]
      { id := "a", createdAt := 0, updatedAt := some 0 }
      { id := "a", createdAt := 0, updatedAt := some 500 }
      (by decide) (by decide) (by decide)).2 (by decide)⟩

/-- C6: if entity `e` is in the Pending Deletion Set and absent from the
local document, then the document produced by `mergeRemoteData` — and by
the poll-triggered merge — still does not contain `e`, for every remote
document: the merge never resurrects a pending-deleted record. -/
theorem claim_C6_pending_deletion_shield (pendDel pendChg : List String)
    (localD remote : TruckData) (e : String) (now : Int)
    (hdel : e ∈ pendDel) (hlocal : ∀ t ∈ localD.trucks, t.id ≠ e) :
    (∀ t ∈ (mergeRemoteData pendDel pendChg localD.trucks remote.trucks now).trucks,
      t.id ≠ e)
    ∧ (∀ t ∈ (pollMerge pendDel pendChg localD remote now).trucks, t.id ≠ e) := by
  have hbase : ∀ u ∈ localD.trucks.foldl mapSet [], u.id ≠ e := by
    intro u hu
    rcases mem_foldl_mapSet localD.trucks [] hu with h1 | h2
    · cases h1
    · exact hlocal u h2
  have hmerge :
      ∀ t ∈ (mergeRemoteData pendDel pendChg localD.trucks remote.trucks now).trucks,
        t.id ≠ e := by
    intro t ht
    simp only [mergeRemoteData] at ht
    exact not_idMem_foldl_mergeStep hdel remote.trucks _ hbase t ht
  refine ⟨hmerge, ?_⟩
  intro t ht
  unfold pollMerge at ht
  split at ht
  · exact hmerge t ht
  · exact hlocal t ht

/-- C6 witness: entity "e" is pending-deletion and locally absent; a
remote document containing "e" does not resurrect it through the merge. -/
theorem claim_C6_pending_deletion_shield_witness :
    ({ id := "e", createdAt := 0, updatedAt := none } : Truck) ∉
      (mergeRemoteData ["e"] []
        [{ id := "a", createdAt := 0, updatedAt := none }]
        [{ id := "e", createdAt := 0, updatedAt := none }] 5).trucks :=
  fun h =>
    (claim_C6_pending_deletion_shield ["e"] []
      { trucks := [{ id := "a", createdAt := 0, updatedAt := none }], lastUpdated := 0 }
      { trucks := [{ id := "e", createdAt := 0, updatedAt := none }], lastUpdated := 9 }
      "e" 5 (by decide) (by decide)).1
      { id := "e", createdAt := 0, updatedAt := none } h rfl

/-- C7: on a local-cache load of the pending-change map, an entry is in
the restored map iff it was saved and its timestamp is at most 5 minutes
old: strictly older entries are removed, entries exactly 5 minutes old
or newer are kept. -/
theorem claim_C7_staleness_sweep (changes : List (String × PendingChange))
    (now : Int) (k : String) (c : PendingChange) :
    (k, c) ∈ loadPendingLocalChanges (some changes) now ↔
      (k, c) ∈ changes ∧ now - fiveMinutesMs ≤ c.timestamp := by
  simp [loadPendingLocalChanges, List.mem_filter, Int.not_lt]

/-- C7 witness: an entry exactly 5 minutes old survives the sweep, one
a millisecond older is dropped. -/
theorem claim_C7_staleness_sweep_witness :
    (("a", ({ timestamp := 0, opKind := "update" } : PendingChange)) ∈
        loadPendingLocalChanges
          (some [("a", { timestamp := 0, opKind := "update" }),
                 ("b", { timestamp := -1, opKind := "update" })]) fiveMinutesMs)
    ∧ ¬ (("b", ({ timestamp := -1, opKind := "update" } : PendingChange)) ∈
        loadPendingLocalChanges
          (some [("a", { timestamp := 0, opKind := "update" }),
                 ("b", { timestamp := -1, opKind := "update" })]) fiveMinutesMs) :=
  ⟨(claim_C7_staleness_sweep _ fiveMinutesMs "a" _).mpr ⟨by decide, by decide⟩,
   fun h => by
    have := ((claim_C7_staleness_sweep _ fiveMinutesMs "b"
      { timestamp := -1, opKind := "update" }).mp h).2
    exact absurd this (by decide)⟩

/-- C9: merging a remote document never removes a local record — every
truck id present in the local document is still present in the document
produced by `mergeRemoteData`, whatever the remote document holds. -/
theorem claim_C9_merge_superset (pendDel pendChg : List String)
    (localTrucks remoteTrucks : List Truck) (now : Int) :
    ∀ t ∈ localTrucks,
      ∃ u ∈ (mergeRemoteData pendDel pendChg localTrucks remoteTrucks now).trucks,
        u.id = t.id := by
  intro t ht
  simp only [mergeRemoteData]
  exact idMem_foldl_mergeStep_mono remoteTrucks _
    (idMem_foldl_mapSet_of_mem localTrucks [] ht)

/-- C9 witness: a local truck survives a merge with a remote document
that does not mention it. -/
theorem claim_C9_merge_superset_witness :
    ∃ u ∈ (mergeRemoteData [] [] [{ id := "a", createdAt := 0, updatedAt := none }]
        [{ id := "b", createdAt := 0, updatedAt := none }] 3).trucks,
      u.id = "a" :=
  claim_C9_merge_superset [] [] [{ id := "a", createdAt := 0, updatedAt := none }]
    [{ id := "b", createdAt := 0, updatedAt := none }] 3
    { id := "a", createdAt := 0, updatedAt := none } (by decide)

/-- C8: a remote write whose commit message does not contain "reset"
(case-insensitively) and whose input document has at least one truck
merges the existing remote trucks in before writing: every truck id
present in the existing remote document is present in the document
actually written — a truck deleted only locally reappears. -/
theorem claim_C8_non_reset_write_keeps_remote (message : String)
    (ex dataTrucks : List Truck)
    (hmsg : strContainsReset message = false) (hne : dataTrucks ≠ []) :
    ∀ t ∈ ex, ∃ u ∈ githubSaveTrucks message (some ex) dataTrucks, u.id = t.id := by
  intro t ht
  have hlen : 0 < dataTrucks.length := List.length_pos.mpr hne
  have hdec : decide (dataTrucks.length > 0) = true := by simpa using hlen
  unfold githubSaveTrucks saveWriteTrucks
  rw [hmsg]
  simp only [Bool.not_false, Bool.true_and, hdec, if_true]
  exact idMem_foldl_mapSet_mono dataTrucks _
    (idMem_foldl_mapSet_of_mem ex [] ht)

/-- C8 witness: a sync-update write whose input lost truck "a" still
writes a document containing "a" when the existing remote document has
it. -/
theorem claim_C8_non_reset_write_keeps_remote_witness :
    ∃ u ∈ githubSaveTrucks "Sync: update operation"
        (some [{ id := "a", createdAt := 0, updatedAt := none }])
        [{ id := "b", createdAt := 0, updatedAt := none }],
      u.id = "a" :=
  claim_C8_non_reset_write_keeps_remote "Sync: update operation"
    [{ id := "a", createdAt := 0, updatedAt := none }]
    [{ id := "b", createdAt := 0, updatedAt := none }]
    (by decide) (by decide)
    { id := "a", createdAt := 0, updatedAt := none } (by decide)

/-- C2 counterexample: the claim quantifies over every entity, but for
the entity with the empty-string id the coalescing branch is skipped
(`if (operation.entityId)` is falsy on `''`), so two updates targeting
it leave two queued pending operations, not one. -/
theorem claim_C2_counterexample :
    ((addOperation
        (addOperation []
          { type := .update, entityId := some "",
            data := some { trucks := [], lastUpdated := 0 } } 0)
        { type := .update, entityId := some "",
          data := some { trucks := [], lastUpdated := 1 } } 1).filter
      (fun o => o.entityId == some "" && o.status == OpStatus.pending)).length
    = 2 := by decide

/-- C2 (amended to entities with a non-empty id, on queue states with
distinct operation ids as a JS `Map` guarantees): enqueuing two update
operations for the same entity before any drain leaves exactly one
queued pending operation for that entity, and it carries the second
update's payload. -/
theorem claim_C2_coalescing (q : List SyncOp) (e : String) (d1 d2 : TruckData)
    (t1 t2 : Int) (hnd : (q.map (fun o => o.id)).Nodup) (he : e ≠ "") :
    (addOperation
        (addOperation q { type := .update, entityId := some e, data := some d1 } t1)
        { type := .update, entityId := some e, data := some d2 } t2).filter
      (fun o => o.entityId == some e && o.status == OpStatus.pending)
    = [{ id := opId .update (some e) t2, timestamp := t2, type := .update,
         entityId := some e, data := some d2, retries := 0,
         status := .pending, error := none }] := by
  have he' : (e == "") = false := by simpa using he
  have hstep :
      addOperation
          (addOperation q { type := .update, entityId := some e, data := some d1 } t1)
          { type := .update, entityId := some e, data := some d2 } t2
        = queueSet
            ((addOperation q { type := .update, entityId := some e, data := some d1 } t1).filter
              (fun o => !(o.entityId == some e && o.status == OpStatus.pending)))
            { id := opId .update (some e) t2, timestamp := t2, type := .update,
              entityId := some e, data := some d2, retries := 0,
              status := .pending, error := none } := by
    simp [addOperation, he']
  rw [hstep]
  apply filter_queueSet_eq
  · exact (ids_addOperation_nodup q _ t1 hnd).sublist
      (List.Sublist.map _ (List.filter_sublist _))
  · intro o ho
    have h2 := (List.mem_filter.mp ho).2
    cases hb : (o.entityId == some e && o.status == OpStatus.pending)
    · rfl
    · rw [hb] at h2
      exact absurd h2 (by decide)
  · simp

/-- C2 witness: on the empty queue, two updates to entity "a" leave one
pending operation carrying the second payload. -/
theorem claim_C2_coalescing_witness :
    (addOperation
        (addOperation []
          { type := .update, entityId := some "a",
            data := some { trucks := [], lastUpdated := 0 } } 0)
        { type := .update, entityId := some "a",
          data := some { trucks := [], lastUpdated := 1 } } 1).filter
      (fun o => o.entityId == some "a" && o.status == OpStatus.pending)
    = [{ id := opId .update (some "a") 1, timestamp := 1, type := .update,
         entityId := some "a", data := some { trucks := [], lastUpdated := 1 },
         retries := 0, status := .pending, error := none }] :=
  claim_C2_coalescing [] "a" { trucks := [], lastUpdated := 0 }
    { trucks := [], lastUpdated := 1 } 0 1 (by decide) (by decide)

/-- C4: an execution failure increments the operation's retry count;
while the new count is below 3 the operation is re-marked pending, no
conflict is recorded and the drain waits `2^retries` seconds (in ms);
at 3 it transitions to failed, waits nothing, records exactly one
conflict when the failure is conflict-shaped (and none otherwise), is
untouched by the online listener's reset, and is never selected for a
further drain pass. -/
theorem claim_C4_retry_bound (op : SyncOp) (e : ErrorInfo) (cs : List String)
    (hfresh : op.id ∉ cs) :
    (handleOpFailure op e).op.retries = op.retries + 1
    ∧ (op.retries + 1 < 3 →
        (handleOpFailure op e).op.status = OpStatus.pending
        ∧ (handleOpFailure op e).delayMs = some (2 ^ (op.retries + 1) * 1000)
        ∧ (handleOpFailure op e).addedConflict = false)
    ∧ (3 ≤ op.retries + 1 →
        (handleOpFailure op e).op.status = OpStatus.failed
        ∧ (handleOpFailure op e).delayMs = none
        ∧ (conflictShaped e = true → (conflictsAfter cs op e).count op.id = 1)
        ∧ (conflictShaped e = false → conflictsAfter cs op e = cs)
        ∧ onlineResetOp (handleOpFailure op e).op = (handleOpFailure op e).op
        ∧ ∀ q : List SyncOp, (handleOpFailure op e).op ∉ selectPending q) := by
  by_cases h3 : 3 ≤ op.retries + 1
  · have hunf : handleOpFailure op e =
        { op :=
            { op with
                retries := op.retries + 1, error := e.message, status := OpStatus.failed },
          addedConflict := conflictShaped e, delayMs := none } := by
      simp [handleOpFailure, h3]
    refine ⟨by rw [hunf], fun hlt => absurd h3 (by omega),
      fun _ => ⟨by rw [hunf], by rw [hunf], ?_, ?_, ?_, ?_⟩⟩
    · intro hcf
      have hcont : cs.contains op.id = false := by simpa using hfresh
      unfold conflictsAfter
      rw [hunf]
      simp only [hcf, if_true]
      unfold conflictsSet
      rw [hcont]
      simp only [Bool.false_eq_true, if_false, List.count_append]
      rw [List.count_eq_zero.mpr hfresh]
      simp
    · intro hcf
      unfold conflictsAfter
      rw [hunf]
      simp [hcf]
    · rw [hunf]
      unfold onlineResetOp
      have hlt : ¬ (op.retries + 1 < 3) := by omega
      simp [hlt]
    · intro q hq
      have hst := status_of_mem_selectPending hq
      rw [hunf] at hst
      exact OpStatus.noConfusion hst
  · have hunf : handleOpFailure op e =
        { op :=
            { op with
                retries := op.retries + 1, error := e.message, status := OpStatus.pending },
          addedConflict := false,
          delayMs := some (2 ^ (op.retries + 1) * 1000) } := by
      simp [handleOpFailure, h3]
    exact ⟨by rw [hunf], fun _ => ⟨by rw [hunf], by rw [hunf], by rw [hunf]⟩,
      fun hge => absurd hge h3⟩

/-- C4 witness: a syncing operation with 2 prior retries fails with a
409-shaped error: it reaches 3 retries, is marked failed, and exactly
one conflict record keyed by its id is created. -/
theorem claim_C4_retry_bound_witness :
    (conflictsAfter []
        { id := "update_e_5", timestamp := 5, type := OpType.update,
          entityId := some "e", data := none, retries := 2,
          status := OpStatus.syncing, error := none }
        { status := some 409, message := some "conflict" }).count "update_e_5"
      = 1 :=
  ((claim_C4_retry_bound
      { id := "update_e_5", timestamp := 5, type := OpType.update,
        entityId := some "e", data := none, retries := 2,
        status := OpStatus.syncing, error := none }
      { status := some 409, message := some "conflict" } []
      (by decide)).2.2 (by decide)).2.2.1 (by decide)

theorem cleanupOldTrucks_fresh (d : TruckData) (now : Int) (initialized : Bool) :
    ∀ t ∈ (cleanupOldTrucks d now initialized).1.trucks,
      now - hours72Ms < t.createdAt := by
  intro t ht
  by_cases hlen : (cleanupFilter now d.trucks).length ≠ d.trucks.length
  · have hres : (cleanupOldTrucks d now initialized).1
        = { trucks := cleanupFilter now d.trucks, lastUpdated := now } := by
      simp [cleanupOldTrucks, hlen]
    rw [hres] at ht
    exact of_decide_eq_true (List.mem_filter.mp ht).2
  · have hres : (cleanupOldTrucks d now initialized).1 = d := by
      simp [cleanupOldTrucks, hlen]
    rw [hres] at ht
    have hall := List.filter_length_eq_length.mp (not_ne_iff.mp hlen)
    exact of_decide_eq_true (hall t ht)

/-- C1 counterexample: with an empty stored local document and a remote
document holding a truck created at time 0, a `loadData` at
`now = 259200001` (so the truck's `createdAt` is more than 72 hours in
the past) returns a document that still contains that truck: the merge
runs after the cleanup and re-introduces old remote records, refuting
the claim for the fetched-and-merged case. -/
theorem claim_C1_counterexample :
    ((loadData (some { trucks := [], lastUpdated := 0 })
        { trucks := [], lastUpdated := 0 } true
        (some { trucks := [{ id := "t1", createdAt := 0, updatedAt := none }],
                lastUpdated := 0 })
        [] [] 259200001).result.trucks.any
      (fun t => decide (t.createdAt < 259200001 - hours72Ms))) = true := by
  decide

/-- C1 (amended): the 72-hour purge holds for the locally stored
document — every record of the document returned by `loadData` whose
`createdAt` is 72 hours or more before now necessarily came from the
fetched remote document, which the merge can re-introduce — and the
purge is queued as an update operation exactly when something was
purged and the GitHub service is configured. -/
theorem claim_C1_auto_expiry (d prev : TruckData) (initialized : Bool)
    (remote : Option TruckData) (pendDel pendChg : List String) (now : Int) :
    (∀ t ∈ (loadData (some d) prev initialized remote pendDel pendChg now).result.trucks,
        t.createdAt ≤ now - hours72Ms →
        initialized = true ∧ ∃ r, remote = some r ∧ t ∈ r.trucks)
    ∧ ((loadData (some d) prev initialized remote pendDel pendChg now).cleanupQueued
        = (initialized
            && decide ((cleanupFilter now d.trucks).length ≠ d.trucks.length))) := by
  constructor
  · intro t ht hold
    cases hinit : initialized with
    | false =>
      rw [hinit] at ht
      simp only [loadData, Bool.false_eq_true, if_false] at ht
      have := cleanupOldTrucks_fresh d now false t ht
      exact absurd hold (by linarith)
    | true =>
      rw [hinit] at ht
      cases hrem : remote with
      | none =>
        rw [hrem] at ht
        simp only [loadData, if_true] at ht
        have := cleanupOldTrucks_fresh d now true t ht
        exact absurd hold (by linarith)
      | some r =>
        rw [hrem] at ht
        simp only [loadData, if_true, mergeRemoteData] at ht
        refine ⟨rfl, r, rfl, ?_⟩
        rcases mem_foldl_mergeStep r.trucks _ ht with h1 | h2
        · rcases mem_foldl_mapSet _ [] h1 with h3 | h4
          · cases h3
          · have := cleanupOldTrucks_fresh d now true t h4
            exact absurd hold (by linarith)
        · exact h2
  · show (cleanupOldTrucks d now initialized).2 = _
    by_cases h : (cleanupFilter now d.trucks).length ≠ d.trucks.length
    · simp [cleanupOldTrucks, h]
    · simp [cleanupOldTrucks, h, not_ne_iff.mp h]

/-- C1 witness: in the counterexample scenario, the old truck in the
returned document indeed came from the remote document. -/
theorem claim_C1_auto_expiry_witness :
    true = true
    ∧ ∃ r, (some { trucks := [{ id := "t1", createdAt := 0, updatedAt := none }],
                   lastUpdated := 0 } : Option TruckData) = some r
        ∧ ({ id := "t1", createdAt := 0, updatedAt := none } : Truck) ∈ r.trucks :=
  (claim_C1_auto_expiry { trucks := [], lastUpdated := 0 }
      { trucks := [], lastUpdated := 0 } true
      (some { trucks := [{ id := "t1", createdAt := 0, updatedAt := none }],
              lastUpdated := 0 })
      [] [] 259200001).1
    { id := "t1", createdAt := 0, updatedAt := none } (by decide) (by decide)

/-- C5 counterexample: when every write attempt hits a 409, the five
retry delays are 1000, 1500, 2000, 2500, 3000 ms — not 500 ms × attempt
number (the counter is decremented before `(6 - retries) * 500` is
computed) — and the error thrown after exhaustion is a fresh generic
`Error` with a fixed message that carries no underlying error. -/
theorem claim_C5_counterexample :
    githubSaveData (fun _ => WriteOutcome.conflict409)
      = { outcome := SaveOutcome.exhausted exhaustedMessage none,
          delays := [1000, 1500, 2000, 2500, 3000] }
    ∧ ([1000, 1500, 2000, 2500, 3000] : List Nat)
      ≠ [500 * 1, 500 * 2, 500 * 3, 500 * 4, 500 * 5] := by
  constructor
  · decide
  · decide

/-- C5 (amended): on persistent precondition conflicts the write
retries up to 5 attempts with increasing delays of
`500 ms × (attempt number + 1)` — 1000, 1500, 2000, 2500, 3000 ms — and
when all retries are exhausted it throws a generic error with a fixed
message that does not carry the last underlying error. -/
theorem claim_C5_conflict_retries (outcome : Nat → WriteOutcome)
    (h : ∀ n, n < 5 → outcome n = WriteOutcome.conflict409) :
    githubSaveData outcome
      = { outcome := SaveOutcome.exhausted exhaustedMessage none,
          delays := [1000, 1500, 2000, 2500, 3000] } := by
  have h0 := h 0 (by omega)
  have h1 := h 1 (by omega)
  have h2 := h 2 (by omega)
  have h3 := h 3 (by omega)
  have h4 := h 4 (by omega)
  simp [githubSaveData, saveDataGo, h0, h1, h2, h3, h4]

/-- C5 witness: the all-conflict outcome satisfies the hypothesis and
produces the exhausted result with delays 1000–3000 ms. -/
theorem claim_C5_conflict_retries_witness :
    githubSaveData (fun _ => WriteOutcome.conflict409)
      = { outcome := SaveOutcome.exhausted exhaustedMessage none,
          delays := [1000, 1500, 2000, 2500, 3000] } :=
  claim_C5_conflict_retries (fun _ => WriteOutcome.conflict409) (fun _ _ => rfl)

/-- C10 counterexample: a previously queued operation whose id happens
to equal the generated id `reset_all_0` (same millisecond) is removed by
`resetData`'s enqueue — `Map.set` overwrites it — refuting "removes no
previously queued operation". -/
theorem claim_C10_counterexample :
    ({ id := "reset_all_0", timestamp := -5, type := OpType.update,
       entityId := none, data := none, retries := 0,
       status := OpStatus.syncing, error := none } : SyncOp) ∈
      [({ id := "reset_all_0", timestamp := -5, type := OpType.update,
          entityId := none, data := none, retries := 0,
          status := OpStatus.syncing, error := none } : SyncOp)]
    ∧ ({ id := "reset_all_0", timestamp := -5, type := OpType.update,
         entityId := none, data := none, retries := 0,
         status := OpStatus.syncing, error := none } : SyncOp) ∉
      (resetData
        { localData := { trucks := [], lastUpdated := 0 },
          pendingDeletions := ["x"], pendingLocalChanges := [],
          queue := [{ id := "reset_all_0", timestamp := -5, type := OpType.update,
                      entityId := none, data := none, retries := 0,
                      status := OpStatus.syncing, error := none }] }
        true 0).queue := by
  constructor
  · decide
  · decide

/-- C10 (amended): `resetData` empties the truck collection, clears the
Pending Deletion Set, leaves the Pending Local Change Map unchanged,
and — since the reset operation is enqueued without an entity id, so no
coalescing runs — retains every previously queued operation whose id
differs from the generated `reset_all_<now>` id (an operation with that
exact id is overwritten in place by `Map.set`). -/
theorem claim_C10_reset_frame (st : SyncState) (initialized : Bool) (now : Int)
    (hid : ∀ op ∈ st.queue, op.id ≠ opId OpType.reset none now) :
    (resetData st initialized now).localData.trucks = []
    ∧ (resetData st initialized now).pendingDeletions = []
    ∧ (resetData st initialized now).pendingLocalChanges = st.pendingLocalChanges
    ∧ ∀ op ∈ st.queue, op ∈ (resetData st initialized now).queue := by
  refine ⟨rfl, rfl, rfl, ?_⟩
  intro op hop
  show op ∈ (if initialized then _ else st.queue)
  cases initialized with
  | false => simpa using hop
  | true =>
    rw [if_pos rfl]
    have hany : st.queue.any (fun o => o.id == opId OpType.reset none now) = false :=
      List.any_eq_false.mpr (fun o ho => by simpa using hid o ho)
    show op ∈ queueSet st.queue _
    unfold queueSet
    rw [hany]
    simp only [Bool.false_eq_true, if_false]
    exact List.mem_append_left _ hop

/-- C10 witness: with a queued operation whose id is not the generated
one, `resetData` keeps it in the queue while emptying the document and
the pending deletions. -/
theorem claim_C10_reset_frame_witness :
    ({ id := "update_all_3", timestamp := 3, type := OpType.update,
       entityId := none, data := none, retries := 0,
       status := OpStatus.pending, error := none } : SyncOp) ∈
      (resetData
        { localData := { trucks := [], lastUpdated := 0 },
          pendingDeletions := ["x"],
          pendingLocalChanges := [("a", { timestamp := 0, opKind := "update" })],
          queue := [{ id := "update_all_3", timestamp := 3, type := OpType.update,
                      entityId := none, data := none, retries := 0,
                      status := OpStatus.pending, error := none }] }
        true 7).queue :=
  (claim_C10_reset_frame
    { localData := { trucks := [], lastUpdated := 0 },
      pendingDeletions := ["x"],
      pendingLocalChanges := [("a", { timestamp := 0, opKind := "update" })],
      queue := [{ id := "update_all_3", timestamp := 3, type := OpType.update,
                  entityId := none, data := none, retries := 0,
                  status := OpStatus.pending, error := none }] }
    true 7 (by decide)).2.2.2
    { id := "update_all_3", timestamp := 3, type := OpType.update,
      entityId := none, data := none, retries := 0,
      status := OpStatus.pending, error := none } (by decide)

end TruckSync
